import Mathlib

/-!
Verification of the intervue real-time interview orchestration engine.

Shallow embedding of the core data model and operations:
- `InterviewState` / `SessionPhase` and its phase state machine
  (src/services/api/app/services/orchestrator/state.py),
- the `SessionManager` registry with TTL and capacity eviction (same file),
- the `SentenceBuffer` token-to-sentence segmenter
  (src/services/api/app/services/speech/sentence_buffer.py),
- the TTS consumer of the streaming pipeline
  (src/services/api/app/services/orchestrator/streaming_pipeline.py),
- the message dispatch skeleton of the WebSocket protocol handler
  (src/services/api/app/routers/ws_interview.py).

Machine integers do not occur: all counters are unbounded Python ints,
modelled as `Nat`.  Python dicts preserve insertion order and `min` over a
dict iterates keys in insertion order, so the session registry is modelled
as an insertion-ordered list.
-/

namespace Intervue

/-! ## Interview phases (state.py, SessionPhase) -/

inductive SessionPhase where
  | introduction
  | warmup
  | main_questions
  | follow_up
  | wrap_up
  | completed
deriving DecidableEq, Repr

/-- The fixed `phase_order` list from `InterviewState.advance_phase`. -/
def phase_order : List SessionPhase :=
  [.introduction, .warmup, .main_questions, .follow_up, .wrap_up, .completed]

/-- Position of a phase in the fixed order. -/
def phase_idx (p : SessionPhase) : Nat := phase_order.indexOf p

/-! ## InterviewState (state.py) -/

/-- Model of `LLMMessage` from app/services/llm/client.py: a role/content
record. -/
structure LLMMessage where
  role : String
  content : String
deriving DecidableEq, Repr

/-- Model of `CodingProblem` (app/schemas/coding.py); only its identity
matters here. -/
structure CodingProblem where
  id : String
deriving DecidableEq, Repr

def MAX_SESSIONS : Nat := 500
def SESSION_TTL_MINUTES : Nat := 120
def MAX_CONVERSATION_MESSAGES : Nat := 50

/-- The fields of `InterviewState` that the verified operations touch.
Defaults match the dataclass defaults in state.py. -/
structure InterviewState where
  phase : SessionPhase := .introduction
  conversation_history : List LLMMessage := []
  sequence_number : Nat := 0
  questions_asked : Nat := 0
  max_questions : Nat := 5
  current_problem : Option CodingProblem := none
  submitted_code : Option String := none
  submitted_language : Option String := none
deriving DecidableEq, Repr

/-- A freshly created `InterviewState()` with all dataclass defaults. -/
def freshInterviewState : InterviewState := {}

/-- The method `InterviewState.add_message`: append to history, bump and
return the sequence counter (state.py lines 53-59). -/
def add_message (st : InterviewState) (role content : String) :
    InterviewState × Nat :=
  let st1 := { st with
    conversation_history := st.conversation_history ++
      [⟨if role = "candidate" then "user" else "assistant", content⟩],
    sequence_number := st.sequence_number + 1 }
  (st1, st1.sequence_number)

/-- The method `InterviewState.should_wrap_up` (state.py lines 65-67). -/
def should_wrap_up (st : InterviewState) : Bool :=
  st.questions_asked ≥ st.max_questions

/-- The method `InterviewState.advance_phase` (state.py lines 69-82): look
the current phase up in `phase_order` and step to the next entry unless
already at the last one. -/
def advance_phase (st : InterviewState) : InterviewState :=
  let current_idx := phase_order.indexOf st.phase
  if current_idx < phase_order.length - 1 then
    { st with phase := phase_order.getD (current_idx + 1) st.phase }
  else
    st

/-- Run a sequence of `add_message` calls, collecting the returned
sequence numbers in call order. -/
def run_add_messages (st : InterviewState) :
    List (String × String) → InterviewState × List Nat
  | [] => (st, [])
  | (r, c) :: rest =>
    let p := add_message st r c
    let q := run_add_messages p.1 rest
    (q.1, p.2 :: q.2)

/-! ## WebSocket protocol handler: code_submission validation
(ws_interview.py lines 651-686) -/

def MAX_CODE_LENGTH : Nat := 50000

def ALLOWED_LANGUAGES : List String :=
  ["python", "javascript", "typescript", "java", "c", "cpp", "c++",
   "csharp", "c#", "go", "rust", "ruby", "swift", "kotlin", "scala",
   "php", "r", "sql"]

/-- Python `str.lower()` restricted to per-character lowering (the inputs
here are ASCII). -/
def lowerString (s : String) : String := ⟨s.data.map Char.toLower⟩

inductive CodeSubmissionOutcome where
  | code_too_large
  | invalid_language
  | no_problem
  | evaluated
deriving DecidableEq, Repr

/-- The `code_submission` branch of the WebSocket receive loop
(ws_interview.py lines 651-686): reject oversized code, then a language
outside the allow-list, then a session with no `current_problem`; only a
submission that survives all three checks stores the code and language on
the session state (lines 684-685) and proceeds to evaluation. -/
def handle_code_submission (st : InterviewState) (code language : String) :
    CodeSubmissionOutcome × InterviewState :=
  if MAX_CODE_LENGTH < code.length then (.code_too_large, st)
  else if lowerString language ∉ ALLOWED_LANGUAGES then (.invalid_language, st)
  else if st.current_problem = none then (.no_problem, st)
  else (.evaluated, { st with submitted_code := some code,
                              submitted_language := some language })

/-- A code payload one character over the ceiling. -/
def oversizedCode : String := ⟨List.replicate (MAX_CODE_LENGTH + 1) 'x'⟩

/-! ## WebSocket protocol handler: receive-loop dispatch
(ws_interview.py lines 488-765) -/

/-- An inbound WebSocket frame as seen by the receive loop: a text that
`json.loads` fails on, or a parsed JSON object whose `type` field is
`msgType` (`none` when the field is absent). -/
inductive InboundMessage where
  | malformed (raw : String)
  | parsed (msgType : Option String)
deriving DecidableEq, Repr

/-- The message types the receive loop dispatches on. -/
def KNOWN_MESSAGE_TYPES : List String :=
  ["resume_context", "start_interview", "audio", "playback_complete",
   "request_evaluation", "request_problem", "code_submission",
   "end_session"]

structure ProtocolError where
  code : String
  recoverable : Bool
deriving DecidableEq, Repr

inductive LoopStep where
  | continues (sent : List ProtocolError)
  | dispatched (msgType : String)
  | ends (sent : List ProtocolError)
deriving DecidableEq, Repr

/-- Whether the receive loop goes on to the next `receive_text` after the
step (a dispatched known type returns to the top of the loop too). -/
def loop_step_continues : LoopStep → Bool
  | .continues _ => true
  | .dispatched _ => true
  | .ends _ => false

/-- One iteration of the receive loop at the dispatch level
(ws_interview.py lines 489-745).  `json.loads` on a malformed frame
raises, and no handler inside the loop catches the exception, so it
propagates to the outer `except Exception` (lines 749-762) which sends a
non-recoverable WEBSOCKET_ERROR and leaves the loop (the `finally` then
removes the session).  A parsed message whose type matches no `elif`
branch falls through silently and the loop continues.  `end_session`
breaks the loop; the other known types are dispatched to their handlers
(modelled abstractly, since the claims here concern only the dispatch). -/
def receive_loop_step (m : InboundMessage) : LoopStep :=
  match m with
  | .malformed _ => .ends [⟨"WEBSOCKET_ERROR", false⟩]
  | .parsed none => .continues []
  | .parsed (some t) =>
    if t = "end_session" then .ends []
    else if t ∈ KNOWN_MESSAGE_TYPES then .dispatched t
    else .continues []

/-! ## Streaming pipeline: the TTS consumer
(streaming_pipeline.py, process_tts_stream, lines 207-258) -/

structure AudioEvent where
  data : List Nat
  is_final : Bool
deriving DecidableEq, Repr

/-- Audio events produced for one sentence.  `primary` returns the chunks
the primary provider streamed before it either finished (`true`) or
raised (`false`); on failure the consumer retries once with `fallback`
(one whole-sentence chunk, or `none` when the fallback also raises), and
when both fail the sentence is skipped (streaming_pipeline.py lines
218-255). -/
def tts_events_for (primary : String → List (List Nat) × Bool)
    (fallback : String → Option (List Nat)) (sentence : String) :
    List AudioEvent :=
  let r := primary sentence
  let primaryEvents := r.1.map (fun c => AudioEvent.mk c false)
  if r.2 then primaryEvents
  else
    primaryEvents ++
      match fallback sentence with
      | some c => [⟨c, false⟩]
      | none => []

/-- The `process_tts_stream` consumer: drain the FIFO sentence queue
(represented by the list of sentences the producer enqueues before the
terminating `None`), synthesize each sentence with primary-then-fallback,
and emit the final empty `is_final` marker after the queue drains
(streaming_pipeline.py lines 213-258). -/
def process_tts_stream (primary : String → List (List Nat) × Bool)
    (fallback : String → Option (List Nat)) :
    List String → List AudioEvent
  | [] => [⟨[], true⟩]
  | s :: rest =>
    tts_events_for primary fallback s ++
      process_tts_stream primary fallback rest

/-! ## The audio-turn phase update
(ws_interview.py lines 150-158 and 329-337) -/

/-- The branch on the session phase run after an interviewer reply
(ws_interview.py lines 152-158): advance out of INTRODUCTION or WARMUP,
else force WRAP_UP when `should_wrap_up` holds and the phase is not
already WRAP_UP. -/
def audio_phase_branch (st : InterviewState) : InterviewState :=
  if st.phase = .introduction then advance_phase st
  else if st.phase = .warmup then advance_phase st
  else if should_wrap_up st ∧ st.phase ≠ .wrap_up then
    { st with phase := .wrap_up }
  else st

/-- The full state update of one completed audio turn that touches the
phase: `questions_asked += 1` (ws_interview.py line 150) followed by the
phase branch. -/
def audio_turn_phase_update (st : InterviewState) : InterviewState :=
  audio_phase_branch { st with questions_asked := st.questions_asked + 1 }

/-! ## SentenceBuffer (sentence_buffer.py)

The extraction loop searches the buffer with the Python regex
([^.!?]*[.!?]+["')\]]*)\s+ via `re.search`.  For this pattern a match
exists at the leftmost position where a (possibly empty) run of
non-terminators is followed by at least one terminator, then a (possibly
empty) run of closing quotes/brackets, then at least one whitespace;
backtracking cannot rescue a terminator run whose closer run is not
followed by whitespace (closers and terminators are never whitespace), so
the search simply restarts after such a run.  `pat_search` implements
exactly that, returning group 1 and the buffer suffix after the match
(i.e. after the greedy whitespace run). -/

/-- The regex class [.!?]. -/
def isSentenceTerminator (c : Char) : Bool := c = '.' || c = '!' || c = '?'

/-- The regex class ["')\]]: double quote, single quote, closing
parenthesis, closing bracket. -/
def isCloserChar (c : Char) : Bool :=
  c = Char.ofNat 34 || c = Char.ofNat 39 || c = ')' || c = ']'

/-- The regex class \s on the ASCII range: space, tab, newline, carriage
return, vertical tab, form feed. -/
def isSpaceChar (c : Char) : Bool :=
  c = ' ' || c = Char.ofNat 9 || c = Char.ofNat 10 || c = Char.ofNat 13 ||
  c = Char.ofNat 11 || c = Char.ofNat 12

/-- One `re.search` of the sentence pattern (sentence_buffer.py line 72).
The fuel only bounds the recursion: every recursive call strictly
shrinks the list, so any `fuel ≥ cs.length` gives the search's value. -/
def pat_search_fuel : Nat → List Char → Option (List Char × List Char)
  | 0, _ => none
  | fuel + 1, cs =>
    let pre := cs.takeWhile (fun c => !(isSentenceTerminator c))
    let rest1 := cs.dropWhile (fun c => !(isSentenceTerminator c))
    match rest1 with
    | [] => none
    | _ :: _ =>
      let terms := rest1.takeWhile isSentenceTerminator
      let rest2 := rest1.dropWhile isSentenceTerminator
      let closers := rest2.takeWhile isCloserChar
      let rest3 := rest2.dropWhile isCloserChar
      match rest3 with
      | [] => pat_search_fuel fuel rest2
      | c :: _ =>
        if isSpaceChar c then
          some (pre ++ terms ++ closers, rest3.dropWhile isSpaceChar)
        else
          pat_search_fuel fuel rest2

def pat_search (cs : List Char) : Option (List Char × List Char) :=
  pat_search_fuel cs.length cs

/-- Python `str.strip()`. -/
def strip_chars (cs : List Char) : List Char :=
  ((cs.dropWhile isSpaceChar).reverse.dropWhile isSpaceChar).reverse

/-- The set `SentenceBuffer.ABBREVIATIONS` (sentence_buffer.py lines
22-28). -/
def ABBREVIATIONS : List String :=
  ["mr.", "mrs.", "ms.", "dr.", "prof.", "sr.", "jr.",
   "vs.", "etc.", "i.e.", "e.g.", "a.m.", "p.m.",
   "inc.", "ltd.", "corp.", "co.", "st.", "ave.",
   "jan.", "feb.", "mar.", "apr.", "jun.", "jul.",
   "aug.", "sep.", "oct.", "nov.", "dec."]

/-- Python `text.lower().endswith(abbrev)` for some listed abbreviation: a
raw string-suffix comparison with no word-boundary check. -/
def ends_with_abbrev (cs : List Char) : Bool :=
  ABBREVIATIONS.any (fun a => a.data.isSuffixOf (cs.map Char.toLower))

/-- The loop of `SentenceBuffer._extract_sentences` (lines 61-104): search
the buffer for the sentence pattern; a candidate ending in an
abbreviation is merged with the buffer text up to the following match
(or, when no further match exists, left in the buffer and the loop
breaks); otherwise the stripped group is appended and the buffer advances
past the match.  The fuel bounds the loop; each continuing iteration
strictly shrinks the buffer, so any `fuel ≥ buf.length` gives the loop's
value. -/
def extract_fuel : Nat → List Char → List (List Char) →
    List (List Char) × List Char
  | 0, buf, acc => (acc.reverse, buf)
  | fuel + 1, buf, acc =>
    match pat_search buf with
    | none => (acc.reverse, buf)
    | some (g1, after) =>
      let potential := strip_chars g1
      if ends_with_abbrev potential then
        match pat_search after with
        | some (_, after2) =>
          let sentence := strip_chars (buf.take (buf.length - after2.length))
          extract_fuel fuel after2 (sentence :: acc)
        | none => (acc.reverse, buf)
      else
        extract_fuel fuel after (potential :: acc)

def extract_sentences (buf : List Char) : List (List Char) × List Char :=
  extract_fuel buf.length buf []

structure SentenceBuffer where
  min_chars : Nat
  buffer : List Char
deriving DecidableEq, Repr

/-- The constructor `SentenceBuffer(min_chars)`: Python evaluates
`min_chars or settings.streaming_sentence_min_chars` with config default
20, so both `None` and the falsy `0` fall back to the default. -/
def SentenceBuffer.init (mc : Option Nat) : SentenceBuffer :=
  ⟨match mc with
   | some n => if n = 0 then 20 else n
   | none => 20, []⟩

/-- A `SentenceBuffer()` as constructed by the streaming pipeline. -/
def defaultSentenceBuffer : SentenceBuffer := SentenceBuffer.init none

/-- Python `" ".join`. -/
def join_space (ss : List (List Char)) : List Char :=
  List.intercalate [' '] ss

/-- The method `SentenceBuffer.add_token` (sentence_buffer.py lines
142-169). -/
def add_token (sb : SentenceBuffer) (token : List Char) :
    SentenceBuffer × Option (List Char) :=
  let buffer := sb.buffer ++ token
  let er := extract_sentences buffer
  match er.1 with
  | [] => ({ sb with buffer := er.2 }, none)
  | s :: rest =>
    if sb.min_chars ≤ s.length then
      ({ sb with buffer :=
          if rest.length > 0 then join_space rest ++ [' '] ++ er.2
          else er.2 },
        some s)
    else
      ({ sb with buffer := join_space (s :: rest) ++ [' '] ++ er.2 }, none)

/-- The method `SentenceBuffer.flush` (sentence_buffer.py lines
171-181). -/
def flush (sb : SentenceBuffer) : SentenceBuffer × Option (List Char) :=
  if strip_chars sb.buffer ≠ [] then
    ({ sb with buffer := [] }, some (strip_chars sb.buffer))
  else (sb, none)

/-- Feed a list of tokens through `add_token`, collecting each call's
returned sentence. -/
def add_tokens (sb : SentenceBuffer) :
    List (List Char) → SentenceBuffer × List (Option (List Char))
  | [] => (sb, [])
  | t :: ts =>
    let p := add_token sb t
    let q := add_tokens p.1 ts
    (q.1, p.2 :: q.2)

/-- The sentences a token stream followed by an end-of-stream `flush`
emits, in order. -/
def emitted_sentences (tokens : List (List Char)) : List (List Char) :=
  let r := add_tokens defaultSentenceBuffer tokens
  r.2.reduceOption ++ (flush r.1).2.toList

/-! ## SessionManager (state.py, lines 85-148)

Python dicts preserve insertion order and `min(dict, key=…)` returns the
first key attaining the minimum in that order, so the registry is
modelled as an insertion-ordered list of sessions; the session id (a
UUID string in the source) is opaque and modelled as a `Nat`, which
coincides with the dict as long as ids are distinct. -/

/-- One registry entry: session id and the `started_at` creation
timestamp, in minutes (the TTL comparison
`utcnow() - started_at > timedelta(minutes=SESSION_TTL_MINUTES)` is in
minutes). -/
structure Session where
  sid : Nat
  started_at : Nat
deriving DecidableEq, Repr

/-- The method `SessionManager._is_expired` (state.py lines 92-94). -/
def is_expired (now : Nat) (s : Session) : Bool :=
  SESSION_TTL_MINUTES < now - s.started_at

/-- Python `del self._sessions[min(self._sessions, key=…started_at)]`
(state.py lines 116-124): remove the first entry (in insertion order)
attaining the minimal `started_at`. -/
def remove_oldest : List Session → List Session
  | [] => []
  | s :: rest =>
    if rest.all (fun r => s.started_at ≤ r.started_at) then rest
    else s :: remove_oldest rest

/-- The `while len(self._sessions) >= MAX_SESSIONS` eviction loop of
`create_session` (state.py lines 114-124). -/
def evict_loop (reg : List Session) : List Session :=
  if h : MAX_SESSIONS ≤ reg.length then evict_loop (remove_oldest reg)
  else reg
termination_by reg.length
decreasing_by
  have hlen : ∀ l : List Session, l ≠ [] →
      (remove_oldest l).length + 1 = l.length := by
    intro l
    induction l with
    | nil => intro hne; exact absurd rfl hne
    | cons s rest ih =>
      intro _
      by_cases hc : rest.all (fun r => s.started_at ≤ r.started_at)
      · simp [remove_oldest, hc]
      · have hrest : rest ≠ [] := by
          intro he; rw [he] at hc; simp at hc
        have h2 := ih hrest
        simp only [remove_oldest, if_neg hc, List.length_cons]
        omega
  have hne : reg ≠ [] := by
    intro he
    rw [he] at h
    simp [MAX_SESSIONS] at h
  have h2 := hlen reg hne
  omega

/-- The method `SessionManager.create_session` (state.py lines 96-134):
sweep expired sessions, evict the oldest while at capacity, then insert
the new state; `now` is the clock at the call. -/
def create_session (now sid : Nat) (reg : List Session) : List Session :=
  let reg1 := reg.filter (fun s => !(is_expired now s))
  let reg2 := evict_loop reg1
  reg2 ++ [⟨sid, now⟩]

/-- Run `n` successive `create_session` calls on an initially empty
registry, the i-th (0-based) call at time `t i` with id `sid i`. -/
def create_sessions (t sid : Nat → Nat) : Nat → List Session
  | 0 => []
  | n + 1 => create_session (t n) (sid n) (create_sessions t sid n)

/-! ## Theorems -/

theorem run_add_messages_snd (msgs : List (String × String)) :
    ∀ st : InterviewState,
      (run_add_messages st msgs).2 =
        List.range' (st.sequence_number + 1) msgs.length := by
  induction msgs with
  | nil => intro st; simp [run_add_messages]
  | cons m rest ih =>
    intro st
    obtain ⟨r, c⟩ := m
    simp only [run_add_messages, add_message, List.length_cons,
      List.range'_succ]
    exact congrArg _ (ih _)

/-- **C1.** For every sequence of `add_message` calls on one freshly
created `InterviewState`, the returned sequence numbers are exactly
`1, 2, 3, …` in call order with no gaps and no repeats, and the value
returned by the n-th call equals n. -/
theorem claim1_add_message_sequence (msgs : List (String × String)) :
    (run_add_messages freshInterviewState msgs).2 =
      List.range' 1 msgs.length ∧
    ∀ i, i < msgs.length →
      (run_add_messages freshInterviewState msgs).2.getD i 0 = i + 1 := by
  have h := run_add_messages_snd msgs freshInterviewState
  have h0 : freshInterviewState.sequence_number = 0 := rfl
  rw [h0] at h
  refine ⟨h, ?_⟩
  intro i hi
  rw [h]
  rw [List.getD_eq_getElem?_getD]
  rw [List.getElem?_eq_getElem (by simpa using hi)]
  simp [Nat.add_comm]

/-- **C1 witness.** The sequence numbers for three concrete calls are
`[1, 2, 3]` and the 3rd call returns 3. -/
theorem claim1_witness :
    (run_add_messages freshInterviewState
        [("candidate", "a"), ("interviewer", "b"), ("candidate", "c")]).2 =
      List.range' 1 3 ∧
    (run_add_messages freshInterviewState
        [("candidate", "a"), ("interviewer", "b"), ("candidate", "c")]).2.getD
        2 0 = 3 :=
  ⟨(claim1_add_message_sequence _).1,
    (claim1_add_message_sequence
      [("candidate", "a"), ("interviewer", "b"), ("candidate", "c")]).2 2
      (by decide)⟩

theorem advance_phase_completed (st : InterviewState)
    (h : st.phase = .completed) : advance_phase st = st := by
  obtain ⟨p, ch, sq, qa, mq, cp, sc, sl⟩ := st
  have h2 : p = .completed := h
  subst h2
  rfl

/-- **C2.** Starting from INTRODUCTION, `advance_phase` visits WARMUP,
MAIN_QUESTIONS, FOLLOW_UP, WRAP_UP in order, reaches COMPLETED on the 5th
call, and every further call is a no-op at COMPLETED. -/
theorem claim2_advance_phase_monotonic :
    (advance_phase^[1] freshInterviewState).phase = .warmup ∧
    (advance_phase^[2] freshInterviewState).phase = .main_questions ∧
    (advance_phase^[3] freshInterviewState).phase = .follow_up ∧
    (advance_phase^[4] freshInterviewState).phase = .wrap_up ∧
    (advance_phase^[5] freshInterviewState).phase = .completed ∧
    ∀ n, (advance_phase^[5 + n] freshInterviewState).phase = .completed := by
  refine ⟨by decide, by decide, by decide, by decide, by decide, ?_⟩
  intro n
  induction n with
  | zero => decide
  | succ k ih =>
    have h5 : 5 + (k + 1) = (5 + k) + 1 := rfl
    rw [h5, Function.iterate_succ_apply']
    rw [advance_phase_completed _ ih]
    exact ih

/-- **C5 counterexample.** On a session with no `current_problem`, a
submission whose code exceeds the length ceiling is answered with the
CODE_TOO_LARGE error, not the "no problem" error, refuting the claim that
the "no problem" error is returned regardless of payload validity. -/
theorem claim5_counterexample :
    freshInterviewState.current_problem = none ∧
    (handle_code_submission freshInterviewState oversizedCode "python").1 =
      .code_too_large ∧
    ((handle_code_submission freshInterviewState oversizedCode
        "python").1 == CodeSubmissionOutcome.no_problem) = false := by
  have hlen : oversizedCode.length = MAX_CODE_LENGTH + 1 := by
    simp [oversizedCode, String.length]
  have hlt : MAX_CODE_LENGTH < oversizedCode.length := by
    rw [hlen]; omega
  refine ⟨rfl, ?_, ?_⟩ <;> simp [handle_code_submission, hlt]

/-- **C5 (amended).** A `code_submission` on a session with no
`current_problem` yields the "no problem" error only when the payload
passes the length and language validation; an oversized payload is
answered with CODE_TOO_LARGE and a disallowed language with
INVALID_LANGUAGE, regardless of `current_problem`; in all three rejection
cases the session state is unchanged. -/
theorem claim5_no_problem_amended :
    (∀ st : InterviewState, ∀ code language : String,
        code.length ≤ MAX_CODE_LENGTH →
        lowerString language ∈ ALLOWED_LANGUAGES →
        st.current_problem = none →
        handle_code_submission st code language = (.no_problem, st)) ∧
    (∀ st : InterviewState, ∀ code language : String,
        MAX_CODE_LENGTH < code.length →
        handle_code_submission st code language = (.code_too_large, st)) ∧
    (∀ st : InterviewState, ∀ code language : String,
        code.length ≤ MAX_CODE_LENGTH →
        lowerString language ∉ ALLOWED_LANGUAGES →
        handle_code_submission st code language = (.invalid_language, st)) := by
  refine ⟨?_, ?_, ?_⟩
  · intro st code language h1 h2 h3
    have h1n : ¬ MAX_CODE_LENGTH < code.length := by omega
    simp [handle_code_submission, h1n, h2, h3]
  · intro st code language h1
    simp [handle_code_submission, h1]
  · intro st code language h1 h2
    have h1n : ¬ MAX_CODE_LENGTH < code.length := by omega
    simp [handle_code_submission, h1n, h2]

/-- **C5 witness.** A valid payload on a problem-free session gets the
"no problem" error and leaves the state unchanged. -/
theorem claim5_witness :
    handle_code_submission freshInterviewState "print(1)" "python" =
      (.no_problem, freshInterviewState) :=
  claim5_no_problem_amended.1 freshInterviewState "print(1)" "python"
    (by decide) (by decide) rfl

/-- **C4 counterexample.** A malformed (non-JSON-parseable) frame is not
silently ignored: the step surfaces a non-recoverable WEBSOCKET_ERROR
and the receive loop does not continue. -/
theorem claim4_counterexample :
    receive_loop_step (.malformed "not-valid-json") =
      .ends [⟨"WEBSOCKET_ERROR", false⟩] ∧
    loop_step_continues (receive_loop_step (.malformed "not-valid-json")) =
      false := by
  exact ⟨rfl, rfl⟩

/-- **C4 (amended).** A parsed message with an unrecognized (or absent)
type is silently ignored and the receive loop continues; a malformed
(non-JSON-parseable) frame instead escapes to the outer exception
handler, which sends a non-recoverable WEBSOCKET_ERROR to the client and
terminates the loop. -/
theorem claim4_dispatch_amended :
    (∀ t, t ∉ KNOWN_MESSAGE_TYPES →
        receive_loop_step (.parsed (some t)) = .continues [] ∧
        loop_step_continues (receive_loop_step (.parsed (some t))) = true) ∧
    receive_loop_step (.parsed none) = .continues [] ∧
    (∀ raw, receive_loop_step (.malformed raw) =
        .ends [⟨"WEBSOCKET_ERROR", false⟩]) := by
  refine ⟨?_, rfl, fun _ => rfl⟩
  intro t ht
  have h1 : ¬ t = "end_session" := by
    intro he; exact ht (by rw [he]; decide)
  constructor <;> simp [receive_loop_step, loop_step_continues, h1, ht]

/-- **C4 witness.** The unknown type exercised by the repository's own
test suite is ignored with the loop continuing. -/
theorem claim4_witness :
    receive_loop_step (.parsed (some "nonexistent_type")) = .continues [] ∧
    loop_step_continues
      (receive_loop_step (.parsed (some "nonexistent_type"))) = true :=
  claim4_dispatch_amended.1 "nonexistent_type" (by decide)

/-- **C7.** If TTS synthesis of one sentence fails with both the primary
and the fallback provider, that sentence's audio is omitted but the turn
continues: the remaining queued sentences produce exactly the events they
would produce without the failed sentence, and the final empty
`is_final = true` marker is still emitted after the queue drains. -/
theorem claim7_tts_failure_skips_sentence
    (primary : String → List (List Nat) × Bool)
    (fallback : String → Option (List Nat)) (s : String)
    (hp : primary s = ([], false)) (hf : fallback s = none) :
    (∀ q1 q2, process_tts_stream primary fallback (q1 ++ s :: q2) =
        process_tts_stream primary fallback (q1 ++ q2)) ∧
    (∀ q, ∃ events, process_tts_stream primary fallback q =
        events ++ [⟨[], true⟩]) := by
  have hskip : tts_events_for primary fallback s = [] := by
    simp [tts_events_for, hp, hf]
  constructor
  · intro q1 q2
    induction q1 with
    | nil => simp [process_tts_stream, hskip]
    | cons a rest ih => simp [process_tts_stream, ih]
  · intro q
    induction q with
    | nil => exact ⟨[], rfl⟩
    | cons a rest ih =>
      obtain ⟨pre, hpre⟩ := ih
      exact ⟨tts_events_for primary fallback a ++ pre, by
        simp [process_tts_stream, hpre]⟩

/-- **C7 witness.** With a primary and fallback that always fail, the
middle sentence of a three-sentence queue is skipped and the final marker
is still emitted. -/
theorem claim7_witness :
    process_tts_stream (fun _ => ([], false)) (fun _ => none)
        ["Hi.", "Hello.", "Bye."] =
      process_tts_stream (fun _ => ([], false)) (fun _ => none)
        ["Hi.", "Bye."] ∧
    ∃ events, process_tts_stream (fun _ => ([], false)) (fun _ => none)
        ["Hi.", "Hello.", "Bye."] = events ++ [⟨[], true⟩] :=
  ⟨(claim7_tts_failure_skips_sentence (fun _ => ([], false)) (fun _ => none)
      "Hello." rfl rfl).1 ["Hi."] ["Bye."],
   (claim7_tts_failure_skips_sentence (fun _ => ([], false)) (fun _ => none)
      "Hello." rfl rfl).2 ["Hi.", "Hello.", "Bye."]⟩

/-- **C9 counterexample.** The phase CAN regress: five audio turns from a
fresh session reach WRAP_UP with `questions_asked = max_questions`, one
`advance_phase` call reaches COMPLETED, and the next audio turn moves the
phase backwards from COMPLETED (index 5) to WRAP_UP (index 4). -/
theorem claim9_counterexample :
    (advance_phase (audio_turn_phase_update^[5] freshInterviewState)).phase
      = .completed ∧
    (audio_turn_phase_update (advance_phase
        (audio_turn_phase_update^[5] freshInterviewState))).phase
      = .wrap_up ∧
    phase_idx .wrap_up < phase_idx .completed := by
  refine ⟨by decide, by decide, by decide⟩

theorem audio_phase_branch_not_completed (st : InterviewState)
    (h : st.phase ≠ .completed) :
    (audio_phase_branch st).phase ≠ .completed := by
  obtain ⟨p, ch, sq, qa, mq, cp, sc, sl⟩ := st
  have hp : p ≠ .completed := h
  cases p <;>
    simp_all [audio_phase_branch, advance_phase, phase_order] <;>
    split_ifs <;> simp

/-- **C9 (amended).** `advance_phase` on its own never regresses, and the
audio-turn phase update never regresses from any state whose phase is not
COMPLETED; in particular every state reachable from a fresh session by
audio-turn updates alone has a phase other than COMPLETED, so no such
sequence ever regresses.  (The counterexample shows the unrestricted
claim fails exactly when an audio turn is processed at COMPLETED.) -/
theorem claim9_phase_monotone_amended :
    (∀ st : InterviewState,
        phase_idx st.phase ≤ phase_idx (advance_phase st).phase) ∧
    (∀ st : InterviewState, st.phase ≠ .completed →
        phase_idx st.phase ≤ phase_idx (audio_turn_phase_update st).phase) ∧
    (∀ n, (audio_turn_phase_update^[n] freshInterviewState).phase ≠
        .completed) := by
  have hbranch : ∀ st : InterviewState, st.phase ≠ .completed →
      phase_idx st.phase ≤ phase_idx (audio_phase_branch st).phase := by
    intro st h
    obtain ⟨p, ch, sq, qa, mq, cp, sc, sl⟩ := st
    have hp : p ≠ .completed := h
    cases p <;>
      simp_all [audio_phase_branch, advance_phase, phase_idx, phase_order] <;>
      split_ifs <;> simp
  refine ⟨?_, ?_, ?_⟩
  · intro st
    obtain ⟨p, ch, sq, qa, mq, cp, sc, sl⟩ := st
    cases p with
    | introduction =>
      exact (by decide : phase_idx .introduction ≤ phase_idx .warmup)
    | warmup =>
      exact (by decide : phase_idx .warmup ≤ phase_idx .main_questions)
    | main_questions =>
      exact (by decide : phase_idx .main_questions ≤ phase_idx .follow_up)
    | follow_up =>
      exact (by decide : phase_idx .follow_up ≤ phase_idx .wrap_up)
    | wrap_up =>
      exact (by decide : phase_idx .wrap_up ≤ phase_idx .completed)
    | completed =>
      exact (by decide : phase_idx .completed ≤ phase_idx .completed)
  · intro st h
    exact hbranch { st with questions_asked := st.questions_asked + 1 } h
  · intro n
    induction n with
    | zero => decide
    | succ k ih =>
      rw [Function.iterate_succ_apply']
      exact audio_phase_branch_not_completed _ ih

/-- **C9 amended witness.** A concrete non-COMPLETED state does not
regress under one audio-turn update. -/
theorem claim9_witness :
    phase_idx freshInterviewState.phase ≤
      phase_idx (audio_turn_phase_update freshInterviewState).phase :=
  claim9_phase_monotone_amended.2.1 freshInterviewState (by decide)

/-- **C8.** Feeding `add_token` the token stream of
"Dr. Smith went home. He was tired." (with `flush` at end-of-stream)
yields exactly the two sentences "Dr. Smith went home." and
"He was tired."; in particular no emitted chunk boundary falls
immediately after "Dr.". -/
theorem claim8_dr_smith_two_sentences :
    ["Dr.".data, " Smith".data, " went".data, " home.".data,
     " He".data, " was".data, " tired.".data].flatten =
      "Dr. Smith went home. He was tired.".data ∧
    emitted_sentences
      ["Dr.".data, " Smith".data, " went".data, " home.".data,
       " He".data, " was".data, " tired.".data] =
    ["Dr. Smith went home.".data, "He was tired.".data] := by
  exact ⟨by decide, by decide⟩

/-- **C6 counterexample.** The short sentence "Ok." (3 < 20 characters)
is detected and withheld; once the next sentence is detected, the merged
text meets the threshold, yet `add_token` still returns nothing (the
extraction re-splits at the short sentence every time), and it keeps
returning nothing on further tokens; the merged text surfaces only
through `flush`. -/
theorem claim6_counterexample :
    (add_token defaultSentenceBuffer "Ok. ".data).2 = none ∧
    20 ≤ "Ok. That sounds good to me, thanks.".data.length ∧
    (add_tokens defaultSentenceBuffer
        ["Ok. ".data, "That sounds good to me, thanks. ".data]).2 =
      [none, none] ∧
    (add_tokens defaultSentenceBuffer
        ["Ok. ".data, "That sounds good to me, thanks. ".data,
         "And more text follows here. ".data]).2 = [none, none, none] ∧
    emitted_sentences
        ["Ok. ".data, "That sounds good to me, thanks. ".data] =
      ["Ok. That sounds good to me, thanks.".data] := by
  exact ⟨by decide, by decide, by decide, by decide, by decide⟩

/-- **C6 (amended).** A detected sentence shorter than the
minimum-character threshold is never returned on its own: `add_token`
returns nothing and carries the short sentence forward at the front of
the buffer together with all following extracted text.  (It is not later
returned merged by `add_token` — re-extraction re-splits at the same
short sentence, as the counterexample shows — so the merged text is only
emitted by `flush` at end-of-stream.) -/
theorem claim6_short_sentence_withheld (sb : SentenceBuffer)
    (token s : List Char) (rest : List (List Char)) (buf1 : List Char)
    (hx : extract_sentences (sb.buffer ++ token) = (s :: rest, buf1))
    (hshort : s.length < sb.min_chars) :
    (add_token sb token).2 = none ∧
    (add_token sb token).1.buffer =
      join_space (s :: rest) ++ [' '] ++ buf1 := by
  have hns : ¬ sb.min_chars ≤ s.length := by omega
  simp [add_token, hx, hns]

/-- **C6 witness.** The short sentence "Ok." together with a following
long sentence is withheld wholesale and `add_token` returns nothing. -/
theorem claim6_witness :
    (add_token defaultSentenceBuffer
        "Ok. That sounds good to me, thanks. ".data).2 = none ∧
    (add_token defaultSentenceBuffer
        "Ok. That sounds good to me, thanks. ".data).1.buffer =
      join_space ["Ok.".data, "That sounds good to me, thanks.".data] ++
        [' '] ++ [] :=
  claim6_short_sentence_withheld defaultSentenceBuffer
    "Ok. That sounds good to me, thanks. ".data "Ok.".data
    ["That sounds good to me, thanks.".data] [] (by decide) (by decide)

theorem pat_search_simple (p : List Char)
    (hterm : ∀ c ∈ p, isSentenceTerminator c = false) :
    pat_search (p ++ ['.', ' ']) = some (p ++ ['.'], []) := by
  have hq : ∀ c ∈ p, (!(isSentenceTerminator c)) = true := by
    intro c hc; simp [hterm c hc]
  have hlen : (p ++ ['.', ' ']).length = p.length + 1 + 1 := by
    simp
  unfold pat_search
  rw [hlen]
  rw [pat_search_fuel]
  rw [List.takeWhile_append_of_pos hq, List.dropWhile_append_of_pos hq]
  have e1 : List.dropWhile (fun a => !(isSentenceTerminator a)) ['.', ' '] =
      ['.', ' '] := rfl
  have e2 : List.takeWhile (fun a => !(isSentenceTerminator a)) ['.', ' '] =
      ([] : List Char) := rfl
  have e3 : List.takeWhile isSentenceTerminator ['.', ' '] = ['.'] := rfl
  have e4 : List.dropWhile isSentenceTerminator ['.', ' '] = [' '] := rfl
  have e5 : List.takeWhile isCloserChar [' '] = ([] : List Char) := rfl
  have e6 : List.dropWhile isCloserChar [' '] = [' '] := rfl
  have e7 : List.dropWhile isSpaceChar [' '] = ([] : List Char) := rfl
  have e8 : isSpaceChar ' ' = true := rfl
  simp only [e1, e2, e3, e4, e5, e6, e7, e8]
  simp

theorem extract_sentences_abbrev_stop (buf g1 after : List Char)
    (h1 : pat_search buf = some (g1, after))
    (h2 : ends_with_abbrev (strip_chars g1) = true)
    (h3 : pat_search after = none) :
    extract_sentences buf = ([], buf) := by
  have hne : buf ≠ [] := by
    intro h
    rw [h] at h1
    simp [pat_search, pat_search_fuel] at h1
  obtain ⟨n, hn⟩ : ∃ n, buf.length = n + 1 := by
    cases buf with
    | nil => exact absurd rfl hne
    | cons a l => exact ⟨l.length, rfl⟩
  unfold extract_sentences
  rw [hn]
  rw [extract_fuel]
  simp [h1, h2, h3]

/-- **C10.** The abbreviation guard compares by raw string suffix with no
word-boundary check: whenever the candidate sentence before a terminator
merely ends with the characters of a listed abbreviation (as a suffix of
a longer word), `add_token` does not treat the terminator as a sentence
boundary — the text is withheld in the buffer — and it is later emitted
merged with the following sentence, as the concrete example
"He came first." (suffix "st.") shows. -/
theorem claim10_abbrev_suffix_match :
    (∀ p : List Char, p ≠ [] →
        (∀ c ∈ p, isSentenceTerminator c = false) →
        ends_with_abbrev (strip_chars (p ++ ['.'])) = true →
        add_token defaultSentenceBuffer (p ++ ['.', ' ']) =
          ({ defaultSentenceBuffer with buffer := p ++ ['.', ' '] },
            none)) ∧
    (add_tokens defaultSentenceBuffer
        ["He came first. ".data, "Then he left. ".data]).2 =
      [none, some "He came first. Then he left.".data] := by
  constructor
  · intro p hne hterm habbrev
    have hps := pat_search_simple p hterm
    have hstop :=
      extract_sentences_abbrev_stop (p ++ ['.', ' ']) (p ++ ['.']) []
        hps habbrev rfl
    have hbuf : defaultSentenceBuffer.buffer = [] := rfl
    simp [add_token, hbuf, hstop]
  · decide

/-- **C10 witness.** "He came first." ends with the listed abbreviation
"st." as part of the word "first.", so its terminator is not treated as
a sentence boundary. -/
theorem claim10_witness :
    add_token defaultSentenceBuffer ("He came first".data ++ ['.', ' ']) =
      ({ defaultSentenceBuffer with
          buffer := "He came first".data ++ ['.', ' '] }, none) :=
  claim10_abbrev_suffix_match.1 "He came first".data (by decide)
    (by decide) (by decide)

theorem evict_loop_of_lt (reg : List Session)
    (h : reg.length < MAX_SESSIONS) : evict_loop reg = reg := by
  rw [evict_loop]
  simp [Nat.not_le.mpr h]

theorem remove_oldest_cons (s : Session) (rest : List Session)
    (h : ∀ r ∈ rest, s.started_at ≤ r.started_at) :
    remove_oldest (s :: rest) = rest := by
  have hall : rest.all (fun r => s.started_at ≤ r.started_at) := by
    rw [List.all_eq_true]
    intro r hr
    exact decide_eq_true (h r hr)
  simp [remove_oldest, hall]

/-- Invariant of the registry under successive creations with
non-decreasing timestamps, none of which is expired at any creation
instant: after `n` calls the registry holds exactly the most recent
`min n MAX_SESSIONS` sessions, in creation order. -/
theorem create_sessions_eq (t sid : Nat → Nat) (N : Nat)
    (hmono : ∀ i j, i ≤ j → t i ≤ t j)
    (hfresh : ∀ i j, i ≤ j → j < N → t j - t i ≤ SESSION_TTL_MINUTES) :
    ∀ n, n ≤ N →
      create_sessions t sid n =
        (List.range' (n - MAX_SESSIONS) (min n MAX_SESSIONS)).map
          (fun i => Session.mk (sid i) (t i)) := by
  intro n
  induction n with
  | zero => intro _; simp [create_sessions]
  | succ m ih =>
    intro hm
    have hmN : m ≤ N := by omega
    have hrange_le : m - MAX_SESSIONS + min m MAX_SESSIONS ≤ m := by
      rcases Nat.le_total m MAX_SESSIONS with h | h
      · rw [Nat.min_eq_left h]; omega
      · rw [Nat.min_eq_right h]; omega
    simp only [create_sessions]
    rw [ih hmN]
    rw [create_session]
    have hfilter :
        (List.filter (fun s => !(is_expired (t m) s))
          ((List.range' (m - MAX_SESSIONS) (min m MAX_SESSIONS)).map
            (fun i => Session.mk (sid i) (t i)))) =
        (List.range' (m - MAX_SESSIONS) (min m MAX_SESSIONS)).map
          (fun i => Session.mk (sid i) (t i)) := by
      rw [List.filter_eq_self]
      intro s hs
      rw [List.mem_map] at hs
      obtain ⟨i, hi, rfl⟩ := hs
      rw [List.mem_range'_1] at hi
      have him : i ≤ m := by omega
      have hle := hfresh i m him (by omega)
      simp only [is_expired]
      simp [Nat.not_lt.mpr hle]
    rw [hfilter]
    rcases Nat.lt_or_ge m MAX_SESSIONS with hcase | hcase
    · -- below capacity: the eviction loop is a no-op
      have h0 : m - MAX_SESSIONS = 0 := by omega
      have hmin : min m MAX_SESSIONS = m := by omega
      have hmin1 : min (m + 1) MAX_SESSIONS = m + 1 := by omega
      have h01 : m + 1 - MAX_SESSIONS = 0 := by omega
      rw [h0, hmin, h01, hmin1]
      rw [evict_loop_of_lt _ (by simp [hcase])]
      rw [List.range'_1_concat, List.map_append]
      simp
    · -- at capacity: exactly one oldest entry is evicted
      have hmin : min m MAX_SESSIONS = MAX_SESSIONS := by omega
      have hmin1 : min (m + 1) MAX_SESSIONS = MAX_SESSIONS := by omega
      have h11 : m + 1 - MAX_SESSIONS = (m - MAX_SESSIONS) + 1 := by omega
      rw [hmin, hmin1, h11]
      have hsplit : List.range' (m - MAX_SESSIONS) MAX_SESSIONS =
          (m - MAX_SESSIONS) :: List.range' (m - MAX_SESSIONS + 1)
            (MAX_SESSIONS - 1) := by
        have h6 := List.range'_succ (m - MAX_SESSIONS) (MAX_SESSIONS - 1) 1
        rw [show MAX_SESSIONS - 1 + 1 = MAX_SESSIONS from rfl] at h6
        simpa using h6
      rw [hsplit]
      rw [List.map_cons]
      rw [evict_loop]
      have hlen : MAX_SESSIONS ≤
          (Session.mk (sid (m - MAX_SESSIONS)) (t (m - MAX_SESSIONS)) ::
            (List.range' (m - MAX_SESSIONS + 1) (MAX_SESSIONS - 1)).map
              (fun i => Session.mk (sid i) (t i))).length := by
        rw [List.length_cons, List.length_map, List.length_range']
        decide
      rw [dif_pos hlen]
      have hro :
          remove_oldest
            (Session.mk (sid (m - MAX_SESSIONS)) (t (m - MAX_SESSIONS)) ::
              (List.range' (m - MAX_SESSIONS + 1) (MAX_SESSIONS - 1)).map
                (fun i => Session.mk (sid i) (t i))) =
          (List.range' (m - MAX_SESSIONS + 1) (MAX_SESSIONS - 1)).map
            (fun i => Session.mk (sid i) (t i)) := by
        apply remove_oldest_cons
        intro r hr
        rw [List.mem_map] at hr
        obtain ⟨i, hi, rfl⟩ := hr
        rw [List.mem_range'_1] at hi
        exact hmono _ _ (by omega)
      rw [hro]
      rw [evict_loop_of_lt _ (by
        rw [List.length_map, List.length_range']
        decide)]
      have hconcat : List.range' (m - MAX_SESSIONS + 1) MAX_SESSIONS =
          List.range' (m - MAX_SESSIONS + 1) (MAX_SESSIONS - 1) ++ [m] := by
        have h7 := List.range'_1_concat (m - MAX_SESSIONS + 1)
          (MAX_SESSIONS - 1)
        rw [show MAX_SESSIONS - 1 + 1 = MAX_SESSIONS from rfl] at h7
        rw [h7]
        have hMpos : 1 ≤ MAX_SESSIONS := by decide
        have hm2 : m - MAX_SESSIONS + 1 + (MAX_SESSIONS - 1) = m := by
          omega
        rw [hm2]
      rw [hconcat, List.map_append]
      simp

/-- **C3.** For every `k > 0`, performing `MAX_SESSIONS + k` creations
with distinct ids and non-decreasing timestamps, none expired at any
creation instant, leaves exactly the `MAX_SESSIONS` most recent sessions
(so the `k` evicted sessions are precisely the `k` oldest), and the
registry size never exceeds `MAX_SESSIONS` after any call. -/
theorem claim3_registry_eviction (t sid : Nat → Nat) (k : Nat)
    (hk : 0 < k)
    (hmono : ∀ i j, i ≤ j → t i ≤ t j)
    (hfresh : ∀ i j, i ≤ j → j < MAX_SESSIONS + k →
        t j - t i ≤ SESSION_TTL_MINUTES)
    (hinj : Function.Injective sid) :
    create_sessions t sid (MAX_SESSIONS + k) =
      (List.range' k MAX_SESSIONS).map
        (fun i => Session.mk (sid i) (t i)) ∧
    (create_sessions t sid (MAX_SESSIONS + k)).length = MAX_SESSIONS ∧
    (∀ n, n ≤ MAX_SESSIONS + k →
      (create_sessions t sid n).length ≤ MAX_SESSIONS) := by
  have hmain := create_sessions_eq t sid (MAX_SESSIONS + k) hmono hfresh
  have h1 : MAX_SESSIONS + k - MAX_SESSIONS = k := by omega
  have h2 : min (MAX_SESSIONS + k) MAX_SESSIONS = MAX_SESSIONS := by omega
  have hfinal := hmain (MAX_SESSIONS + k) (Nat.le_refl _)
  rw [h1, h2] at hfinal
  refine ⟨hfinal, ?_, ?_⟩
  · rw [hfinal]; simp
  · intro n hn
    rw [hmain n hn]
    simp

/-- **C3 witness.** One over capacity with all-equal timestamps: the
oldest (first-inserted) session is evicted and exactly `MAX_SESSIONS`
remain. -/
theorem claim3_witness :
    create_sessions (fun _ => 0) (fun i => i) (MAX_SESSIONS + 1) =
      (List.range' 1 MAX_SESSIONS).map
        (fun i => Session.mk i 0) ∧
    (create_sessions (fun _ => 0) (fun i => i)
      (MAX_SESSIONS + 1)).length = MAX_SESSIONS :=
  have h := claim3_registry_eviction (fun _ => 0) (fun i => i) 1
    (by omega) (fun _ _ _ => Nat.le_refl 0)
    (fun _ _ _ _ => by simp [SESSION_TTL_MINUTES])
    (fun a b hab => hab)
  ⟨h.1, h.2.1⟩

end Intervue
